import Mathlib

/-!
Verification of the change-tracking and synchronization engine of the
JarvisCoder VS Code extension (`src/extensions/ai-coder/src/Indexing/codeContext.ts`
and the `FileMetadataStore` in `src/extensions/ai-coder/src/services/apiServices.ts`).

The TypeScript classes are shallowly embedded as pure Lean functions:
the JavaScript `Map` objects become association lists with the same
update-in-place-or-append semantics as `Map.set`, timestamps
(`Date.now()`, `mtimeMs`) become `Int` values supplied explicitly by the
caller (one value per `Date.now()` call site), and the asynchronous file
reads become explicit parameters carrying the values the reads produced.
-/

namespace JarvisCoder

/-! ## Association-list model of the JavaScript `Map` -/

/-- Lookup of the first entry with the given key, as `Map.get`. -/
def alookup {α : Type} : List (String × α) → String → Option α
  | [], _ => none
  | (k', v) :: t, k => if k' = k then some v else alookup t k

/-- Update-in-place-or-append, as `Map.set`: if the key is present its first
entry is replaced at its position, otherwise the pair is appended. -/
def aset {α : Type} : List (String × α) → String → α → List (String × α)
  | [], k, v => [(k, v)]
  | (k', v') :: t, k, v => if k' = k then (k, v) :: t else (k', v') :: aset t k v

/-- Removal of every entry with the given key, as `Map.delete`. -/
def adel {α : Type} : List (String × α) → String → List (String × α)
  | [], _ => []
  | (k', v') :: t, k => if k' = k then adel t k else (k', v') :: adel t k

/-! ## String helpers (models of the JavaScript string operations used) -/

/-- Character-list test for a leading occurrence, used to build the models of
`String.startsWith` and `String.includes`. -/
def leadingChars : List Char → List Char → Bool
  | [], _ => true
  | _ :: _, [] => false
  | a :: as, b :: bs => a == b && leadingChars as bs

/-- Model of the JavaScript `String.includes`: the second list occurs
contiguously inside the first. -/
def hasSubstr : List Char → List Char → Bool
  | [], sub => sub.isEmpty
  | c :: rest, sub => leadingChars sub (c :: rest) || hasSubstr rest sub

/-- Model of `String.includes` on strings. -/
def strIncludes (s sub : String) : Bool :=
  hasSubstr s.toList sub.toList

/-- Model of the JavaScript `String.startsWith`. -/
def strStartsWith (s pre : String) : Bool :=
  leadingChars pre.toList s.toList

/-- Model of the JavaScript `String.endsWith`. -/
def strEndsWith (s suf : String) : Bool :=
  leadingChars suf.toList.reverse s.toList.reverse

/-- Model of the JavaScript `str.split(sep)` on character lists: splitting the
empty string yields one empty piece, as in JavaScript. -/
def splitChars (sep : Char) : List Char → List (List Char)
  | [] => [[]]
  | c :: cs =>
    let r := splitChars sep cs
    if c == sep then [] :: r
    else
      match r with
      | [] => [[c]]
      | h :: t => (c :: h) :: t

/-- Model of `path.split('/')`. -/
def splitSlash (s : String) : List String :=
  (splitChars '/' s.toList).map (fun cs => String.mk cs)

/-- Model of `parts.join('/')`. -/
def joinSlash (parts : List String) : String :=
  String.intercalate "/" parts

/-- Model of Node `path.basename` for the forward-slash paths used here:
the last slash-separated segment. -/
def basename (s : String) : String :=
  (splitSlash s).getLast?.getD s

/-! ## Data model (`FileTracker.ts` interface `FileMetadata` and
`apiServices.ts` `FileMetadataTable`) -/

/-- The `FileMetadata` interface of `codeContext.ts`: absolute path, MD5 hash
of the content, last-modified timestamp in milliseconds, and the optional
last-synced timestamp (`lastSynced?: number`, absent until first sync). -/
structure FileMetadata where
  path : String
  md5Hash : String
  lastModified : Int
  lastSynced : Option Int
deriving Repr, DecidableEq

/-- The `FileMetadataTable` persisted by `FileMetadataStore`: a
`FileMetadata` record extended with the owning workspace folder name. -/
structure FileMetadataTable where
  path : String
  md5Hash : String
  lastModified : Int
  lastSynced : Option Int
  workspaceFolder : String
deriving Repr, DecidableEq

/-- `getStorageKey` of `apiServices.ts`; `encodeURIComponent` is modelled as
the identity, which is injective on the plain folder names considered. -/
def getStorageKey (workspaceFolder : String) : String :=
  "fileMetadata_" ++ workspaceFolder

/-- `getWorkspaceStorageKey` of `apiServices.ts`, same encoding model. -/
def getWorkspaceStorageKey (workspaceFolder : String) : String :=
  "workspaceMetadata_" ++ workspaceFolder

/-- The `extensionContext.globalState` key-value store as used by
`FileMetadataStore`: per-storage-key arrays of `FileMetadataTable` and
per-workspace-key `lastSync` timestamps. -/
structure GlobalStore where
  fileMeta : List (String × List FileMetadataTable)
  wsMeta : List (String × Int)
deriving Repr, DecidableEq

/-- The empty `globalState` (every key missing, read back as the default). -/
def emptyStore : GlobalStore := ⟨[], []⟩

/-- Replacement of the first array element with the given path, as the
`allMetadata[index] = newEntry` write after `findIndex` in
`FileMetadataStore.saveFileMetadata`. -/
def replaceFirstByPath : List FileMetadataTable → String → FileMetadataTable →
    List FileMetadataTable
  | [], _, _ => []
  | x :: xs, p, e => if x.path = p then e :: xs else x :: replaceFirstByPath xs p e

/-- `FileMetadataStore.saveFileMetadata`: updates or appends the entry for
`metadata.path` in the workspace array, then refreshes the workspace
`lastSync` to the current time (`now` models the `Date.now()` call). -/
def saveFileMetadata (now : Int) (store : GlobalStore) (metadata : FileMetadata)
    (workspaceFolder : String) : GlobalStore :=
  let storageKey := getStorageKey workspaceFolder
  let allMetadata := (alookup store.fileMeta storageKey).getD []
  let newEntry : FileMetadataTable :=
    ⟨metadata.path, metadata.md5Hash, metadata.lastModified, metadata.lastSynced,
      workspaceFolder⟩
  let updated :=
    if allMetadata.any (fun item => item.path = metadata.path) then
      replaceFirstByPath allMetadata metadata.path newEntry
    else
      allMetadata ++ [newEntry]
  { fileMeta := aset store.fileMeta storageKey updated,
    wsMeta := aset store.wsMeta (getWorkspaceStorageKey workspaceFolder) now }

/-- `FileMetadataStore.getWorkspaceLastSyncTime`: the stored `lastSync`
with default `0` for a missing key. -/
def getWorkspaceLastSyncTime (store : GlobalStore) (workspaceFolder : String) : Int :=
  (alookup store.wsMeta (getWorkspaceStorageKey workspaceFolder)).getD 0

/-! ## FileTracker state and operations -/

/-- The mutable state of a `FileTracker` instance relevant to classification
and sync: the `fileHashes` and `changedFiles` maps, the transient
`processingFiles` set, and the persisted store it writes through.  The
debounce timers (`pendingChecks`) hold no classified data and are omitted. -/
structure TrackerState where
  fileHashes : List (String × FileMetadata)
  changedFiles : List (String × FileMetadata)
  processingFiles : List String
  store : GlobalStore
deriving Repr, DecidableEq

/-- `FileTracker.MTIME_TOLERANCE` (milliseconds). -/
def MTIME_TOLERANCE : Int := 1000

/-- The result record returned by `FileTracker.checkFile`
(interface `FileChangeResult`; the `error` field is dropped since the
embedding covers the successful-read path). -/
structure FileChangeResult where
  changed : Bool
  metadata : Option FileMetadata
deriving Repr, DecidableEq

/-- The `hasChanged` condition of `FileTracker.checkFile`: no prior record,
or a differing hash, or an mtime outside the tolerance window. -/
def hasChangedCond (fileHashes : List (String × FileMetadata))
    (filePath currentHash : String) (currentMtime : Int) : Bool :=
  match alookup fileHashes filePath with
  | none => true
  | some e =>
    currentHash != e.md5Hash ||
      decide (MTIME_TOLERANCE < |currentMtime - e.lastModified|)

/-- The `needsSync` condition of `FileTracker.checkFile`.  The JavaScript
test `!existingMetadata?.lastSynced` is truthy when the record or the field
is absent and also when the stored timestamp is `0`. -/
def needsSyncCond (fileHashes : List (String × FileMetadata))
    (filePath currentHash : String) (currentMtime workspaceLastSync : Int) : Bool :=
  hasChangedCond fileHashes filePath currentHash currentMtime &&
    (match (alookup fileHashes filePath).bind (fun e => e.lastSynced) with
     | none => true
     | some v =>
       v == 0 || decide (v < currentMtime) || decide (workspaceLastSync < currentMtime))

/-- `FileTracker.updateFileMetadata`: writes the record into both in-memory
maps and persists it; the store save stamps the workspace `lastSync` with
the current time. -/
def updateFileMetadata (wsOf : String → String) (now : Int) (st : TrackerState)
    (metadata : FileMetadata) : TrackerState :=
  let st1 : TrackerState :=
    { st with
      fileHashes := aset st.fileHashes metadata.path metadata,
      changedFiles := aset st.changedFiles metadata.path metadata }
  let workspaceFolder := wsOf metadata.path
  { st1 with store := saveFileMetadata now st1.store metadata workspaceFolder }

/-- `FileTracker.checkFile` for a successfully read file: `currentHash` and
`currentMtime` are the values produced by the awaited content read and
`fs.promises.stat`; `shouldSkip` is the result of `shouldSkipFile`; `wsOf`
models `getWorkspaceFolder` (empty string when no folder contains the path);
`now` models the `Date.now()` inside the store save.  The transient
`processingFiles` insertion is removed again in the `finally` block, so the
returned state carries the set unchanged. -/
def checkFile (wsOf : String → String) (now : Int) (st : TrackerState)
    (filePath currentHash : String) (currentMtime : Int) (shouldSkip : Bool) :
    TrackerState × FileChangeResult :=
  if st.processingFiles.contains filePath || shouldSkip then
    (st, ⟨false, none⟩)
  else
    let workspaceFolder := wsOf filePath
    let workspaceLastSync : Int :=
      if workspaceFolder = "" then 0
      else getWorkspaceLastSyncTime st.store workspaceFolder
    let hasChanged := hasChangedCond st.fileHashes filePath currentHash currentMtime
    let needsSync :=
      needsSyncCond st.fileHashes filePath currentHash currentMtime workspaceLastSync
    if hasChanged then
      let priorLastSynced := (alookup st.fileHashes filePath).bind (fun e => e.lastSynced)
      let metadata : FileMetadata := ⟨filePath, currentHash, currentMtime, priorLastSynced⟩
      let st1 := updateFileMetadata wsOf now st metadata
      let st2 :=
        if needsSync then
          { st1 with changedFiles := aset st1.changedFiles filePath metadata }
        else st1
      (st2, ⟨needsSync, if needsSync then some metadata else none⟩)
    else
      (st, ⟨false, none⟩)

/-- The re-check filter inside `FileTracker.checkForChanges`: an entry of
`changedFiles` is kept when its path is no longer tracked, was never synced
(or synced at the falsy timestamp `0`), was synced before its recorded
modification, or its tracked hash differs. -/
def stillNeedsSync (fileHashes : List (String × FileMetadata)) (m : FileMetadata) : Bool :=
  match alookup fileHashes m.path with
  | none => true
  | some e =>
    match e.lastSynced with
    | none => true
    | some v =>
      v == 0 || decide (v < m.lastModified) || e.md5Hash != m.md5Hash

/-- `FileTracker.checkForChanges`: filters the values of `changedFiles` by
the re-check, and clears the map only inside the branch taken when at least
one entry passed the filter. -/
def checkForChanges (st : TrackerState) : TrackerState × List FileMetadata :=
  let filesToSync := (st.changedFiles.map Prod.snd).filter (stillNeedsSync st.fileHashes)
  if filesToSync.length > 0 then
    ({ st with changedFiles := [] }, filesToSync)
  else
    (st, filesToSync)

/-- `FileTracker.updateLastSynced`: a no-op when the path is untracked or has
no containing workspace folder; otherwise stamps `lastSynced` with the
current time (`now` models the `Date.now()` producing `syncTime`; the later
`Date.now()` inside the store save is modelled as the same instant) and
persists the updated record. -/
def updateLastSynced (wsOf : String → String) (now : Int) (st : TrackerState)
    (filePath : String) : TrackerState :=
  match alookup st.fileHashes filePath with
  | none => st
  | some metadata =>
    let workspaceFolder := wsOf filePath
    if workspaceFolder = "" then st
    else
      let updatedMetadata : FileMetadata := { metadata with lastSynced := some now }
      { st with
        fileHashes := aset st.fileHashes filePath updatedMetadata,
        store := saveFileMetadata now st.store updatedMetadata workspaceFolder }

/-! ## Sync coordinator (`CodeIndexing.syncChangedFilesInBackground`) -/

/-- `CodeIndexing.MAX_SYNC_RETRIES`. -/
def MAX_SYNC_RETRIES : Nat := 3

/-- The retry-eligibility test of the catch block: the error message contains
the substring storage of one of the three transient keywords. -/
def isRetryableError (msg : String) : Bool :=
  strIncludes msg "network" || strIncludes msg "server" || strIncludes msg "timeout"

/-- Outcome of one pass through the catch block of
`syncChangedFilesInBackground`: the new `syncRetryCount` and whether a
`setTimeout` retry was scheduled. -/
structure SyncStepResult where
  syncRetryCount : Nat
  retryScheduled : Bool
deriving Repr, DecidableEq

/-- One execution of the catch block with the given prior retry count and
error message: on a retryable error below the bound the count is
incremented and a retry is scheduled after `SYNC_RETRY_DELAY`; otherwise
the batch is given up and the count resets to `0`. -/
def syncFailureStep (syncRetryCount : Nat) (msg : String) : SyncStepResult :=
  if isRetryableError msg && decide (syncRetryCount < MAX_SYNC_RETRIES) then
    ⟨syncRetryCount + 1, true⟩
  else
    ⟨0, false⟩

/-- The sequence of catch-block outcomes under up to `n` consecutive upload
failures with message `msg`, starting from the given retry count: a further
failure can only occur when the previous step scheduled a retry, so the
trace stops at the first step that gives up. -/
def failureTrace (msg : String) (syncRetryCount : Nat) : Nat → List SyncStepResult
  | 0 => []
  | n + 1 =>
    let r := syncFailureStep syncRetryCount msg
    r :: (if r.retryScheduled then failureTrace msg r.syncRetryCount n else [])

/-- The success path of `syncChangedFilesInBackground` after the upload
resolved with `success: true`: `for (const file of changedFiles) await
this.fileTracker.updateLastSynced(file.path)`.  The clock maps the index of
each loop iteration to the value `Date.now()` returns inside that
`updateLastSynced` call. -/
def stampBatch (wsOf : String → String) (clock : Nat → Int) :
    Nat → TrackerState → List FileMetadata → TrackerState
  | _, st, [] => st
  | i, st, f :: rest =>
    stampBatch wsOf clock (i + 1) (updateLastSynced wsOf (clock i) st f.path) rest

/-- One successful background-sync cycle: drain the pending set through
`checkForChanges`, upload succeeds, then stamp every file of the batch. -/
def syncSuccessRun (wsOf : String → String) (clock : Nat → Int)
    (st : TrackerState) : TrackerState :=
  let r := checkForChanges st
  stampBatch wsOf clock 0 r.1 r.2

/-! ## Gitignore pattern matching (`GitignoreHandler.matchesPattern`)

The source delegates single-segment glob tests to the `minimatch` npm
library.  The model below implements the documented `minimatch` behaviour
for the pattern forms the claims exercise: patterns are split on `/`, a
path matches only when it has exactly as many segments as the pattern, and
within a segment `*` matches any character run, `?` one character, and
other characters match literally (no `**` patterns occur in the claims). -/

/-- Fuel-indexed single-segment glob matcher; the fuel argument only
bounds recursion depth and is always supplied large enough. -/
def globMatchAux : Nat → List Char → List Char → Bool
  | 0, _, _ => false
  | _ + 1, [], t => t.isEmpty
  | fuel + 1, p :: ps, t =>
    if p = '*' then
      match t with
      | [] => globMatchAux fuel ps []
      | _ :: ts => globMatchAux fuel ps t || globMatchAux fuel (p :: ps) ts
    else
      match t with
      | [] => false
      | c :: cs => (if p = '?' then true else p == c) && globMatchAux fuel ps cs

/-- Single-segment glob match with sufficient fuel. -/
def globSegMatch (pat text : List Char) : Bool :=
  globMatchAux (pat.length + text.length + 1) pat text

/-- Model of `minimatch(target, pattern)` for the slash-separated glob
patterns used by `GitignoreHandler`. -/
def minimatchModel (target pattern : String) : Bool :=
  let pSegs := splitSlash pattern
  let tSegs := splitSlash target
  pSegs.length == tSegs.length &&
    (List.zip pSegs tSegs).all (fun pt => globSegMatch pt.1.toList pt.2.toList)

/-- `GitignoreHandler.matchesPattern`: the four-way branch on trailing `/`,
leading `/`, embedded `/`, and bare filename patterns, each delegating to
the minimatch model exactly as the source delegates to `minimatch`. -/
def matchesPattern (filePath pattern : String) : Bool :=
  if strEndsWith pattern "/" then
    let dirPattern := String.mk (pattern.toList.dropLast)
    let pathParts := splitSlash filePath
    (List.range (pathParts.length - 1)).any (fun i =>
      let dirPath := joinSlash (pathParts.take (i + 1))
      minimatchModel dirPath dirPattern ||
        minimatchModel (pathParts.getD i "") dirPattern)
  else if strStartsWith pattern "/" then
    let rootPattern := String.mk (pattern.toList.drop 1)
    minimatchModel filePath rootPattern || strStartsWith filePath rootPattern
  else if pattern.toList.contains '/' then
    minimatchModel filePath pattern ||
      (let pathParts := splitSlash filePath
       (List.range pathParts.length).any (fun i =>
         minimatchModel (joinSlash (pathParts.drop i)) pattern))
  else
    let filename := basename filePath
    minimatchModel filename pattern ||
      (splitSlash filePath).any (fun part => minimatchModel part pattern)

/-! ## Import resolution dispatch (`ImportResolver.resolveImports`) -/

/-- The language ids handled by the switch in `ImportResolver.resolveImports`. -/
def supportedImportLanguages : List String :=
  ["typescript", "javascript", "typescriptreact", "javascriptreact",
    "python", "solidity"]

/-- The switch of `ImportResolver.resolveImports` before the surrounding
try/catch: the three per-language resolvers are passed as functions whose
`Except.error` outcome models a thrown internal error; unsupported
languages take the default branch and produce the empty list. -/
def dispatchResolver (rJs rPy rSol : String → String → Except String (List String))
    (filePath fileContent languageId : String) : Except String (List String) :=
  if languageId = "typescript" || languageId = "javascript" ||
      languageId = "typescriptreact" || languageId = "javascriptreact" then
    rJs filePath fileContent
  else if languageId = "python" then
    rPy filePath fileContent
  else if languageId = "solidity" then
    rSol filePath fileContent
  else
    Except.ok []

/-- `ImportResolver.resolveImports` with its try/catch: a thrown error from
any branch is caught, logged, and turned into the empty list. -/
def resolveImports (rJs rPy rSol : String → String → Except String (List String))
    (filePath fileContent languageId : String) : List String :=
  match dispatchResolver rJs rPy rSol filePath fileContent languageId with
  | Except.ok paths => paths
  | Except.error _ => []

/-! ## Concrete instances used in the theorems below -/

/-- A `getWorkspaceFolder` where every path lies in the workspace `ws`. -/
def wsAll : String → String := fun _ => "ws"

/-- A `getWorkspaceFolder` where no workspace folder contains any path
(`vscode.workspace.workspaceFolders` contains no matching folder), so the
source function returns the empty string. -/
def wsEmpty : String → String := fun _ => ""

/-- A tracker state with one tracked, already synced file whose stored hash
is `h1`: its `lastSynced` (200) and the workspace last-sync time (300) both
lie at or after its mtime (100). -/
def stSyncedA : TrackerState :=
  { fileHashes := [("a", ⟨"a", "h1", 100, some 200⟩)],
    changedFiles := [],
    processingFiles := [],
    store := { fileMeta := [], wsMeta := [("workspaceMetadata_ws", 300)] } }

/-- A tracker state whose pending set holds one entry that fails the
`checkForChanges` re-check: the tracked record for `a` was synced (at 200)
after its recorded modification (100) and carries the same hash. -/
def stResidue : TrackerState :=
  { fileHashes := [("a", ⟨"a", "h", 100, some 200⟩)],
    changedFiles := [("a", ⟨"a", "h", 100, none⟩)],
    processingFiles := [],
    store := emptyStore }

/-- A tracker state with one never-synced tracked file `a`, also pending. -/
def stPendingA : TrackerState :=
  { fileHashes := [("a", ⟨"a", "h", 500, none⟩)],
    changedFiles := [("a", ⟨"a", "h", 500, none⟩)],
    processingFiles := [],
    store := emptyStore }

/-- A tracker state with two never-synced tracked files `a` and `b`, both
pending: a two-file upload batch. -/
def stPendingAB : TrackerState :=
  { fileHashes := [("a", ⟨"a", "h", 500, none⟩), ("b", ⟨"b", "g", 500, none⟩)],
    changedFiles := [("a", ⟨"a", "h", 500, none⟩), ("b", ⟨"b", "g", 500, none⟩)],
    processingFiles := [],
    store := emptyStore }

/-- A millisecond clock that has advanced by one between the first and the
second `Date.now()` observation. -/
def tickingClock : Nat → Int := fun i => 1000 + i

/-- An import resolver that succeeds with one resolved path. -/
def resolverOk : String → String → Except String (List String) :=
  fun _ _ => Except.ok ["resolved.ts"]

/-- An import resolver whose internal resolution throws. -/
def resolverErr : String → String → Except String (List String) :=
  fun _ _ => Except.error "boom"

end JarvisCoder

namespace JarvisCoder

/-! ## Helper lemmas -/

theorem alookup_aset_self {α : Type} (l : List (String × α)) (k : String) (v : α) :
    alookup (aset l k v) k = some v := by
  induction l with
  | nil => simp [aset, alookup]
  | cons h t ih =>
    obtain ⟨k', v'⟩ := h
    by_cases hk : k' = k
    · simp [aset, alookup, hk]
    · simp [aset, alookup, hk, ih]

theorem alookup_aset_ne {α : Type} (l : List (String × α)) (k q : String) (v : α)
    (h : q ≠ k) : alookup (aset l k v) q = alookup l q := by
  induction l with
  | nil =>
    have hk : ¬k = q := fun hh => h hh.symm
    simp [aset, alookup, hk]
  | cons hd t ih =>
    obtain ⟨k', v'⟩ := hd
    by_cases hk : k' = k
    · subst hk
      have hk2 : ¬k' = q := fun hh => h hh.symm
      simp [aset, alookup, hk2]
    · simp only [aset, if_neg hk]
      by_cases hq : k' = q
      · simp [alookup, hq]
      · simp [alookup, hq, ih]

/-- The returned batch of `checkForChanges` is the filtered value list of
`changedFiles` in both branches of the length test. -/
theorem checkForChanges_snd (st : TrackerState) :
    (checkForChanges st).2 =
      (st.changedFiles.map Prod.snd).filter (stillNeedsSync st.fileHashes) := by
  unfold checkForChanges
  by_cases h :
      ((st.changedFiles.map Prod.snd).filter (stillNeedsSync st.fileHashes)).length > 0
  · simp [h]
  · simp [h]

/-- Shape of `updateLastSynced` in the tracked-with-workspace case. -/
theorem updateLastSynced_eq_of_tracked (wsOf : String → String) (now : Int)
    (st : TrackerState) (p : String) (e : FileMetadata)
    (he : alookup st.fileHashes p = some e) (hws : wsOf p ≠ "") :
    updateLastSynced wsOf now st p =
      { st with
        fileHashes := aset st.fileHashes p { e with lastSynced := some now },
        store := saveFileMetadata now st.store { e with lastSynced := some now }
          (wsOf p) } := by
  unfold updateLastSynced
  rw [he]
  simp [hws]

/-! ## Claim theorems -/

/-- C1: evaluation of the success path at the failing input.  For the batch
`{a, b}` returned by `checkForChanges`, with `Date.now()` advancing from
1000 to 1001 between the two `updateLastSynced` calls of the stamping loop,
file `a` receives `lastSynced = 1000` and file `b` receives
`lastSynced = 1001`: the batch does NOT share a single batch-start
timestamp, although the recorded `syncStartTime` and the comment above the
loop state that intent. -/
theorem stampBatch_timestamps_differ :
    ((checkForChanges stPendingAB).2.map (fun m => m.path)) = ["a", "b"] ∧
    ((alookup (syncSuccessRun wsAll tickingClock stPendingAB).fileHashes "a").bind
      (fun e => e.lastSynced)) = some 1000 ∧
    ((alookup (syncSuccessRun wsAll tickingClock stPendingAB).fileHashes "b").bind
      (fun e => e.lastSynced)) = some 1001 ∧
    some (1000 : Int) ≠ some (1001 : Int) := by decide

/-- C3 counterexample: a pending set whose single entry fails the
needs-sync re-check is NOT drained — `checkForChanges` returns the empty
batch and leaves the entry sitting in `changedFiles`, contradicting the
claim that the set is empty when the call returns. -/
theorem checkForChanges_leaves_residue :
    (checkForChanges stResidue).2 = [] ∧
    (checkForChanges stResidue).1.changedFiles =
      [("a", ⟨"a", "h", 100, none⟩)] ∧
    (checkForChanges stResidue).1.changedFiles ≠ [] := by decide

/-- C3 amended: `checkForChanges` returns exactly the pending entries that
pass the needs-sync re-check; it empties the pending set when at least one
entry passes and leaves the whole state (pending set included) unchanged
when none does, and it never touches `fileHashes`, `processingFiles` or the
store. -/
theorem checkForChanges_drain_spec (st : TrackerState) :
    (checkForChanges st).2 =
      (st.changedFiles.map Prod.snd).filter (stillNeedsSync st.fileHashes) ∧
    (checkForChanges st).1.changedFiles =
      (if ((st.changedFiles.map Prod.snd).filter (stillNeedsSync st.fileHashes)).isEmpty
        then st.changedFiles else []) ∧
    (checkForChanges st).1.fileHashes = st.fileHashes ∧
    (checkForChanges st).1.processingFiles = st.processingFiles ∧
    (checkForChanges st).1.store = st.store := by
  cases hl : (st.changedFiles.map Prod.snd).filter (stillNeedsSync st.fileHashes) with
  | nil => simp [checkForChanges, hl]
  | cons a t => simp [checkForChanges, hl]

/-- C4 counterexample: starting from retry count 0, after 3 consecutive
upload failures whose messages are classified as network errors the catch
block has scheduled a retry each time; the state after the third failure is
count 3 with a further retry scheduled (a 4th upload attempt pending) — the
batch is not dropped and the counter is not reset, contrary to the claim. -/
theorem three_failures_schedule_fourth_attempt :
    failureTrace "network error" 0 3 = [⟨1, true⟩, ⟨2, true⟩, ⟨3, true⟩] ∧
    (failureTrace "network error" 0 3).getLast? = some ⟨3, true⟩ ∧
    (⟨3, true⟩ : SyncStepResult) ≠ ⟨0, false⟩ := by decide

/-- C4 amended: under persistent retryable network failures (4 or more
consecutive failing attempts offered), exactly 3 retry attempts are
scheduled — after the initial attempt and the first two retries fail — and
the 4th consecutive failure (the failure of the 3rd retry) drops the batch:
no further retry is scheduled and the retry counter resets to 0. -/
theorem retry_bound_after_four_failures (n : Nat) (h : 4 ≤ n) :
    failureTrace "network error" 0 n =
      [⟨1, true⟩, ⟨2, true⟩, ⟨3, true⟩, ⟨0, false⟩] ∧
    ((failureTrace "network error" 0 n).filter (fun r => r.retryScheduled)).length = 3 ∧
    (failureTrace "network error" 0 n).getLast? = some ⟨0, false⟩ := by
  obtain ⟨k, rfl⟩ : ∃ k, n = k + 4 := ⟨n - 4, by omega⟩
  have s0 : syncFailureStep 0 "network error" = ⟨1, true⟩ := by decide
  have s1 : syncFailureStep 1 "network error" = ⟨2, true⟩ := by decide
  have s2 : syncFailureStep 2 "network error" = ⟨3, true⟩ := by decide
  have s3 : syncFailureStep 3 "network error" = ⟨0, false⟩ := by decide
  have htrace : failureTrace "network error" 0 (k + 4) =
      [⟨1, true⟩, ⟨2, true⟩, ⟨3, true⟩, ⟨0, false⟩] := by
    simp [failureTrace, s0, s1, s2, s3]
  refine ⟨htrace, ?_, ?_⟩
  · rw [htrace]; decide
  · rw [htrace]; decide

/-- C4 witness: the amended bound applied at exactly 4 offered failures. -/
theorem retry_bound_after_four_failures_witness :
    failureTrace "network error" 0 4 =
      [⟨1, true⟩, ⟨2, true⟩, ⟨3, true⟩, ⟨0, false⟩] :=
  (retry_bound_after_four_failures 4 (by decide)).1

/-- C7: the four literal gitignore cases of the spec, evaluated on
`GitignoreHandler.matchesPattern`: a directory pattern matches the
segment at any depth, a bare `*.log` pattern matches the basename, and a
rooted `/dist` pattern matches only at the workspace root. -/
theorem gitignore_literal_cases :
    matchesPattern "node_modules/pkg/index.js" "node_modules/" = true ∧
    matchesPattern "src/app.log" "*.log" = true ∧
    matchesPattern "src/dist/app.js" "/dist" = false ∧
    matchesPattern "dist/app.js" "/dist" = true := by decide

/-- C8: a failed attempt schedules a retry exactly when the error message
contains one of the substrings network, server, or timeout AND the retry
count is still below `MAX_SYNC_RETRIES`; whenever no retry is scheduled
(non-retryable message or exhausted bound) the retry counter resets to 0,
so the batch is given up immediately with no retry. -/
theorem syncFailure_retry_characterization (syncRetryCount : Nat) (msg : String) :
    ((syncFailureStep syncRetryCount msg).retryScheduled = true ↔
      ((strIncludes msg "network" || strIncludes msg "server" ||
        strIncludes msg "timeout") = true ∧ syncRetryCount < MAX_SYNC_RETRIES)) ∧
    ((syncFailureStep syncRetryCount msg).retryScheduled = false →
      (syncFailureStep syncRetryCount msg).syncRetryCount = 0) := by
  by_cases hr : (strIncludes msg "network" || strIncludes msg "server" ||
      strIncludes msg "timeout") = true <;>
    by_cases hc : syncRetryCount < MAX_SYNC_RETRIES <;>
    simp [syncFailureStep, isRetryableError, hr, hc]

/-- C8 witness: a network-error message at count 0 schedules a retry; an
authentication failure message resets the counter with no retry. -/
theorem syncFailure_retry_characterization_witness :
    (syncFailureStep 0 "network error").retryScheduled = true ∧
    (syncFailureStep 0 "authentication failed").syncRetryCount = 0 := by
  refine ⟨?_, ?_⟩
  · exact (syncFailure_retry_characterization 0 "network error").1.mpr (by decide)
  · exact (syncFailure_retry_characterization 0 "authentication failed").2 (by decide)

/-- C2 counterexample: classifying file `a` in `stSyncedA` with a new hash
`h2` but an unchanged mtime gives `hasChanged = true` (hash differs) while
the needs-sync condition is false (synced at 200 and workspace-synced at
300, both after the mtime 100).  `checkFile` reports `changed = false`, yet
`updateFileMetadata` has inserted `a` into the pending `changedFiles` map —
a path enters the PendingChangeSet although `needsSync` was false at
classification time. -/
theorem checkFile_inserts_without_needsSync :
    alookup stSyncedA.changedFiles "a" = none ∧
    needsSyncCond stSyncedA.fileHashes "a" "h2" 100
      (getWorkspaceLastSyncTime stSyncedA.store "ws") = false ∧
    (checkFile wsAll 1000 stSyncedA "a" "h2" 100 false).2.changed = false ∧
    alookup (checkFile wsAll 1000 stSyncedA "a" "h2" 100 false).1.changedFiles "a" =
      some ⟨"a", "h2", 100, some 200⟩ := by decide

/-- C2 amended: every path newly inserted into the PendingChangeSet by
`checkFile` satisfied `hasChanged = true` at classification time (no prior
record, differing hash, or mtime outside tolerance) — but not necessarily
`needsSync = true`, since `updateFileMetadata` inserts every changed file
regardless of the needs-sync test. -/
theorem changedFiles_insert_implies_hasChanged
    (wsOf : String → String) (now : Int) (st : TrackerState)
    (filePath currentHash : String) (currentMtime : Int) (shouldSkip : Bool)
    (hbefore : alookup st.changedFiles filePath = none)
    (hafter :
      alookup (checkFile wsOf now st filePath currentHash currentMtime
        shouldSkip).1.changedFiles filePath ≠ none) :
    hasChangedCond st.fileHashes filePath currentHash currentMtime = true := by
  by_cases hg : (st.processingFiles.contains filePath || shouldSkip) = true
  · exfalso
    apply hafter
    simp only [checkFile, hg, if_true]
    exact hbefore
  · cases hc : hasChangedCond st.fileHashes filePath currentHash currentMtime with
    | true => rfl
    | false =>
      exfalso
      apply hafter
      simp only [checkFile, hg, hc]
      simp [hbefore]

/-- C2 witness for the amended claim: the insertion of `a` above was indeed
classified with `hasChanged = true`. -/
theorem changedFiles_insert_implies_hasChanged_witness :
    hasChangedCond stSyncedA.fileHashes "a" "h2" 100 = true :=
  changedFiles_insert_implies_hasChanged wsAll 1000 stSyncedA "a" "h2" 100 false
    (by decide) (by decide)

/-- C5 counterexample: file `a` is tracked and pending but lies under no
workspace folder, so `updateLastSynced` is the early-return no-op; the
immediately following `checkForChanges` still returns `a` although `a` was
not modified after the stamp attempt (mtime 500, stamp time 1000) —
the round-trip claim fails for tracked files outside every workspace
folder. -/
theorem roundTrip_fails_without_workspace :
    ((checkForChanges (updateLastSynced wsEmpty 1000 stPendingA "a")).2.map
      (fun m => m.path)) = ["a"] ∧
    (500 : Int) ≤ 1000 := by decide

/-- C5 amended: for every tracked path `p` that lies under a workspace
folder, stamping at time `t` and then draining excludes `p`, provided no
pending entry for `p` records a modification after the stamp (and the
hashes agree with the tracked record, as every classification writes the
same record to both maps; `0 < t` since `Date.now()` is positive). -/
theorem updateLastSynced_roundTrip
    (wsOf : String → String) (t : Int) (st : TrackerState) (p : String)
    (e : FileMetadata)
    (hfh : alookup st.fileHashes p = some e)
    (hws : wsOf p ≠ "")
    (ht0 : 0 < t)
    (hvals : ∀ v ∈ st.changedFiles.map Prod.snd, v.path = p →
      v.md5Hash = e.md5Hash ∧ v.lastModified ≤ t) :
    ∀ v ∈ (checkForChanges (updateLastSynced wsOf t st p)).2, v.path ≠ p := by
  intro v hv hvp
  rw [checkForChanges_snd] at hv
  rw [updateLastSynced_eq_of_tracked wsOf t st p e hfh hws] at hv
  simp only [List.mem_filter] at hv
  obtain ⟨hvmem, hvsync⟩ := hv
  obtain ⟨hmd5, hml⟩ := hvals v hvmem hvp
  rw [stillNeedsSync, hvp, alookup_aset_self] at hvsync
  simp only at hvsync
  rw [hmd5] at hvsync
  simp [decide_eq_true_eq] at hvsync
  rcases hvsync with hz | hlt <;> omega

/-- C5 witness: the round-trip applied to the tracked pending file `a`
under workspace `ws`, stamped at 1000: the drained batch contains no entry
for `a`. -/
theorem updateLastSynced_roundTrip_witness :
    ¬ ((checkForChanges (updateLastSynced wsAll 1000 stPendingA "a")).2.any
      (fun v => v.path = "a") = true) := by
  intro hmem
  simp only [List.any_eq_true, decide_eq_true_eq] at hmem
  obtain ⟨v, hv, hvp⟩ := hmem
  exact updateLastSynced_roundTrip wsAll 1000 stPendingA "a" ⟨"a", "h", 500, none⟩
    (by decide) (by decide) (by decide)
    (by intro v hv hvp; exact ⟨by simp_all [stPendingA], by simp_all [stPendingA]⟩)
    v hv hvp

/-- C6: re-classifying a tracked file whose hash equals the stored hash and
whose mtime lies within the 1000ms tolerance of the stored mtime gives
`hasChanged = false`, so `checkFile` returns the state completely unchanged
(no PendingChangeSet insertion, no metadata update, no store write) with a
negative change result. -/
theorem checkFile_unchanged_idempotent
    (wsOf : String → String) (now : Int) (st : TrackerState)
    (filePath currentHash : String) (currentMtime : Int) (shouldSkip : Bool)
    (e : FileMetadata)
    (he : alookup st.fileHashes filePath = some e)
    (hh : currentHash = e.md5Hash)
    (hm : |currentMtime - e.lastModified| ≤ MTIME_TOLERANCE) :
    checkFile wsOf now st filePath currentHash currentMtime shouldSkip =
      (st, ⟨false, none⟩) := by
  have hc : hasChangedCond st.fileHashes filePath currentHash currentMtime = false := by
    rw [hasChangedCond, he, hh]
    simp [not_lt.mpr hm]
  by_cases hg : (st.processingFiles.contains filePath || shouldSkip) = true
  · simp only [checkFile, hg, if_true]
  · simp only [checkFile, hg, hc]
    simp

/-- C6 witness: re-classifying the synced file `a` of `stSyncedA` with its
stored hash `h1` and an mtime 150 within tolerance of the stored 100 leaves
the tracker untouched. -/
theorem checkFile_unchanged_idempotent_witness :
    checkFile wsAll 1000 stSyncedA "a" "h1" 150 false = (stSyncedA, ⟨false, none⟩) :=
  checkFile_unchanged_idempotent wsAll 1000 stSyncedA "a" "h1" 150 false
    ⟨"a", "h1", 100, some 200⟩ (by decide) (by decide) (by decide)

/-- C9: `resolveImports` called with a language id outside the six
supported ids takes the default branch and returns the empty list; and for
every language, when the selected internal resolver throws, the
surrounding catch turns the outcome into the empty list — the function
never propagates an error. -/
theorem resolveImports_safe
    (rJs rPy rSol : String → String → Except String (List String))
    (filePath fileContent languageId : String) :
    (languageId ∉ supportedImportLanguages →
      resolveImports rJs rPy rSol filePath fileContent languageId = []) ∧
    (∀ e, dispatchResolver rJs rPy rSol filePath fileContent languageId =
        Except.error e →
      resolveImports rJs rPy rSol filePath fileContent languageId = []) := by
  refine ⟨?_, ?_⟩
  · intro h
    simp only [supportedImportLanguages, List.mem_cons, List.not_mem_nil, or_false,
      not_or] at h
    obtain ⟨h1, h2, h3, h4, h5, h6⟩ := h
    simp [resolveImports, dispatchResolver, h1, h2, h3, h4, h5, h6]
  · intro e he
    simp [resolveImports, he]

/-- C9 witness: an unsupported language (`rust`) yields the empty list, and
a supported language whose resolver throws also yields the empty list. -/
theorem resolveImports_safe_witness :
    resolveImports resolverOk resolverOk resolverOk "main.rs" "content" "rust" = [] ∧
    resolveImports resolverErr resolverOk resolverOk "a.ts" "content" "typescript" = [] := by
  refine ⟨?_, ?_⟩
  · exact (resolveImports_safe resolverOk resolverOk resolverOk "main.rs" "content"
      "rust").1 (by decide)
  · exact (resolveImports_safe resolverErr resolverOk resolverOk "a.ts" "content"
      "typescript").2 "boom" rfl

/-- C10: frame property of `updateLastSynced`.  For a tracked path with a
containing workspace folder, the call rewrites only the `lastSynced` field
of that path's record — path, hash and mtime are copied verbatim — the
lookup of every other path is untouched, and the pending set and
processing set are untouched.  For an untracked path, or one with no
workspace folder, the call returns the state identically (total function:
the embedded no-op models the logged early return, not a throw). -/
theorem updateLastSynced_frame (wsOf : String → String) (now : Int)
    (st : TrackerState) (p : String) :
    (∀ e, alookup st.fileHashes p = some e → wsOf p ≠ "" →
      alookup (updateLastSynced wsOf now st p).fileHashes p =
        some ⟨e.path, e.md5Hash, e.lastModified, some now⟩ ∧
      (∀ q, q ≠ p →
        alookup (updateLastSynced wsOf now st p).fileHashes q =
          alookup st.fileHashes q) ∧
      (updateLastSynced wsOf now st p).changedFiles = st.changedFiles ∧
      (updateLastSynced wsOf now st p).processingFiles = st.processingFiles) ∧
    ((alookup st.fileHashes p = none ∨ wsOf p = "") →
      updateLastSynced wsOf now st p = st) := by
  refine ⟨?_, ?_⟩
  · intro e he hws
    rw [updateLastSynced_eq_of_tracked wsOf now st p e he hws]
    refine ⟨alookup_aset_self _ _ _, fun q hq => alookup_aset_ne _ _ _ _ hq, rfl, rfl⟩
  · rintro (hn | hws)
    · simp [updateLastSynced, hn]
    · cases hl : alookup st.fileHashes p with
      | none => simp [updateLastSynced, hl]
      | some e => simp [updateLastSynced, hl, hws]

/-- C10 witness: for the tracked pending file `a` under workspace `ws` the
stamp rewrites exactly the `lastSynced` field, and under no workspace
folder the call is the identity. -/
theorem updateLastSynced_frame_witness :
    alookup (updateLastSynced wsAll 1000 stPendingA "a").fileHashes "a" =
      some ⟨"a", "h", 500, some 1000⟩ ∧
    updateLastSynced wsEmpty 1000 stPendingA "a" = stPendingA := by
  refine ⟨?_, ?_⟩
  · exact ((updateLastSynced_frame wsAll 1000 stPendingA "a").1
      ⟨"a", "h", 500, none⟩ (by decide) (by decide)).1
  · exact (updateLastSynced_frame wsEmpty 1000 stPendingA "a").2 (Or.inr rfl)

end JarvisCoder
